import Mathlib

/-!
Verification of the browser-spotlight index-maintenance core.

This file gives a shallow embedding of the search-index engine
(`src/lib/persistentSearch.ts`), the change-sync coordinator
(`src/lib/changeSync.ts`) and the full-rebuild job
(`src/jobs/indexGoogleDrive.ts`), and proves or refutes the frozen claims
about them.

The inverted index is the MiniSearch library instance.  Its behavior,
documented by the library, is modelled here: `add` throws on an id that is
already present, `discard` throws on an id that is not present, `addAll` and
`discardAll` apply the per-document operation left to right and stop at the
first failure (documents already processed stay processed).  Exceptions are
modelled by returning the partially mutated state together with an
`Option String` error.
-/

namespace Spotlight

/-- Full file metadata stored in the engine `fileMap`
(the `FileMetadata` interface of `persistentSearch.ts`: a `DriveFile`
extended with the optional usage-tracking fields). -/
structure FileMetadata where
  id : String
  name : String
  mimeType : String
  modifiedTime : Option String := none
  size : Option String := none
  openCount : Option Nat := none
  lastOpenedTime : Option String := none
deriving Repr, DecidableEq

/-- Tokenized projection stored in the MiniSearch index
(the `SearchableFile` interface of `persistentSearch.ts`). -/
structure SearchableFile where
  id : String
  name : String
  pathTokens : String
  typeKeywords : String
  mimeType : String
  modifiedTime : Option String := none
deriving Repr, DecidableEq

/-- True when `pat` occurs as a substring of `s`
(JavaScript `String.prototype.includes`). -/
def strIncludes (s pat : String) : Bool :=
  (s.splitOn pat).length != 1

/-- Character-level body of `tokenizePath`: split camelCase by inserting a
space between a lowercase letter and the uppercase letter that follows it. -/
def splitCamel : List Char → List Char
  | a :: b :: rest =>
    if a.isLower && b.isUpper then a :: ' ' :: splitCamel (b :: rest)
    else a :: splitCamel (b :: rest)
  | l => l

/-- The private `tokenizePath` helper: separators become spaces, camelCase is
split, and the result is lowercased. -/
def tokenizePath (name : String) : String :=
  let sep := String.map (fun c => if c = '.' || c = '_' || c = '-' then ' ' else c) name
  (String.mk (splitCamel sep.data)).toLower

/-- The private `getTypeKeywords` helper: keywords derived from the mime type. -/
def getTypeKeywords (mimeType : String) : String :=
  let keywords : List String :=
    (if strIncludes mimeType "document" then ["doc", "document", "text", "word"] else []) ++
    (if strIncludes mimeType "spreadsheet" then ["sheet", "excel", "csv", "table"] else []) ++
    (if strIncludes mimeType "presentation" then ["slide", "powerpoint", "ppt", "presentation"] else []) ++
    (if strIncludes mimeType "pdf" then ["pdf", "document"] else []) ++
    (if strIncludes mimeType "folder" then ["folder", "directory"] else []) ++
    (if strIncludes mimeType "image" then ["image", "photo", "picture"] else []) ++
    (if strIncludes mimeType "video" then ["video", "movie"] else []) ++
    (if strIncludes mimeType "audio" then ["audio", "music", "sound"] else [])
  String.intercalate " " keywords

/-- The projection `addFiles` builds before indexing a file. -/
def toSearchable (f : FileMetadata) : SearchableFile :=
  { id := f.id
    name := f.name
    pathTokens := tokenizePath f.name
    typeKeywords := getTypeKeywords f.mimeType
    mimeType := f.mimeType
    modifiedTime := f.modifiedTime }

/-- The MiniSearch inverted index, modelled as its list of (non-discarded)
stored documents in insertion order. -/
abbrev MiniSearch := List SearchableFile

/-- Ids of the documents currently in the index. -/
def msIds (ms : MiniSearch) : List String := ms.map (·.id)

/-- Whether an id is currently in the index. -/
def msHas (ms : MiniSearch) (i : String) : Bool := (msIds ms).contains i

/-- MiniSearch `addAll`: adds documents left to right; `add` throws on a
duplicate id, leaving the documents added so far in the index. -/
def msAddAll : MiniSearch → List SearchableFile → MiniSearch × Option String
  | ms, [] => (ms, none)
  | ms, d :: ds =>
    if msHas ms d.id then (ms, some ("MiniSearch: duplicate ID " ++ d.id))
    else msAddAll (ms ++ [d]) ds

/-- MiniSearch `discardAll`: discards ids left to right; `discard` throws on
an id that is not in the index, leaving the ids discarded so far removed. -/
def msDiscardAll : MiniSearch → List String → MiniSearch × Option String
  | ms, [] => (ms, none)
  | ms, i :: is =>
    if msHas ms i then msDiscardAll (ms.filter (fun d => d.id != i)) is
    else (ms, some ("MiniSearch: cannot discard document with ID " ++ i ++ ": it is not in the index"))

/-- State of the `PersistentSearchService` engine: the MiniSearch instance,
the metadata map (as an association list, in `Map` insertion order) and the
readiness flag. -/
structure EngineState where
  miniSearch : MiniSearch
  fileMap : List (String × FileMetadata)
  isReady : Bool
deriving Repr, DecidableEq

/-- JavaScript `Map.has`. -/
def mapHas (m : List (String × FileMetadata)) (k : String) : Bool :=
  m.any (fun p => p.1 == k)

/-- JavaScript `Map.get`. -/
def mapGet (m : List (String × FileMetadata)) (k : String) : Option FileMetadata :=
  (m.find? (fun p => p.1 == k)).map (·.2)

/-- JavaScript `Map.set`: an existing key keeps its position and gets the new
value; a new key is appended. -/
def mapSet (m : List (String × FileMetadata)) (k : String) (v : FileMetadata) :
    List (String × FileMetadata) :=
  if mapHas m k then m.map (fun p => if p.1 == k then (k, v) else p)
  else m ++ [(k, v)]

/-- JavaScript `Map.delete` (ignoring the returned boolean). -/
def mapDelete (m : List (String × FileMetadata)) (k : String) :
    List (String × FileMetadata) :=
  m.filter (fun p => p.1 != k)

/-- The error thrown by `addFiles` before the engine is initialized. -/
def notInitializedMsg : String :=
  "Search service not initialized. Call initialize() first."

/-- The engine `addFiles`: throws when not ready; otherwise projects the
files, adds them all to MiniSearch (a duplicate id throws mid-way, and the
metadata map is then left untouched), then stores the metadata. -/
def addFiles (s : EngineState) (files : List FileMetadata) :
    EngineState × Option String :=
  if !s.isReady then (s, some notInitializedMsg)
  else
    match msAddAll s.miniSearch (files.map toSearchable) with
    | (ms, some e) => ({ s with miniSearch := ms }, some e)
    | (ms, none) =>
      ({ s with miniSearch := ms
                fileMap := files.foldl (fun m f => mapSet m f.id f) s.fileMap }, none)

/-- The engine `updateFiles`: silently returns when not ready; otherwise
discards the old projections (an absent id throws mid-way) and re-adds via
`addFiles`. -/
def updateFiles (s : EngineState) (files : List FileMetadata) :
    EngineState × Option String :=
  if !s.isReady then (s, none)
  else
    match msDiscardAll s.miniSearch (files.map (·.id)) with
    | (ms, some e) => ({ s with miniSearch := ms }, some e)
    | (ms, none) => addFiles { s with miniSearch := ms } files

/-- The engine `removeFiles`: silently returns when not ready; otherwise
discards the projections (an absent id throws mid-way, leaving the metadata
map untouched), then deletes the metadata entries. -/
def removeFiles (s : EngineState) (fileIds : List String) :
    EngineState × Option String :=
  if !s.isReady then (s, none)
  else
    match msDiscardAll s.miniSearch fileIds with
    | (ms, some e) => ({ s with miniSearch := ms }, some e)
    | (ms, none) =>
      ({ s with miniSearch := ms
                fileMap := fileIds.foldl mapDelete s.fileMap }, none)

/-- The engine `replaceIndex`: silently returns when not ready; otherwise
clears the index and the metadata map and re-adds all files via `addFiles`. -/
def replaceIndex (s : EngineState) (files : List FileMetadata) :
    EngineState × Option String :=
  if !s.isReady then (s, none)
  else addFiles { s with miniSearch := [], fileMap := [] } files

/-- The engine `trackFileOpen`: increments `openCount` and stamps
`lastOpenedTime` of an existing entry; an unknown id is a no-op. -/
def trackFileOpen (s : EngineState) (fileId : String) (nowIso : String) :
    EngineState :=
  match mapGet s.fileMap fileId with
  | none => s
  | some f =>
    let f' := { f with openCount := some (f.openCount.getD 0 + 1)
                       lastOpenedTime := some nowIso }
    { s with fileMap := mapSet s.fileMap fileId f' }

/-- A single entry of the Drive change feed, as consumed by
`processChanges`. -/
structure Change where
  fileId : String
  removed : Bool
  file : Option FileMetadata := none
deriving Repr, DecidableEq

/-- One iteration of the `processChanges` loop; the surrounding
`try`/`catch` swallows any error thrown by the nested call, keeping its
partially mutated state. -/
def processOneChange (s : EngineState) (c : Change) : EngineState :=
  if c.removed || c.file.isNone then
    if mapHas s.fileMap c.fileId then (removeFiles s [c.fileId]).1 else s
  else
    match c.file with
    | none => s
    | some f =>
      if mapHas s.fileMap c.fileId then (updateFiles s [f]).1
      else (addFiles s [f]).1

/-- The engine `processChanges`: a no-op when not ready or the list is
empty; otherwise processes each change in order, swallowing per-change
errors. It never throws. -/
def processChanges (s : EngineState) (changes : List Change) :
    EngineState × Option String :=
  if !s.isReady || changes.isEmpty then (s, none)
  else (changes.foldl processOneChange s, none)

/-- The engine state right after a fresh `initialize()` over empty storage:
ready, with empty index and empty metadata map. -/
def emptyState : EngineState := { miniSearch := [], fileMap := [], isReady := true }

/-- The engine state before `initialize()` has completed. -/
def uninitState : EngineState := { miniSearch := [], fileMap := [], isReady := false }

/-- The public mutating operations of the engine, for reachability
statements. -/
inductive Op where
  | add (files : List FileMetadata)
  | update (files : List FileMetadata)
  | remove (fileIds : List String)
  | replace (files : List FileMetadata)
  | process (changes : List Change)
  | track (fileId : String) (nowIso : String)
deriving Repr

/-- Apply one public operation, returning the resulting state and the error
it threw, if any. -/
def applyOp (s : EngineState) : Op → EngineState × Option String
  | .add fs => addFiles s fs
  | .update fs => updateFiles s fs
  | .remove ids => removeFiles s ids
  | .replace fs => replaceIndex s fs
  | .process cs => processChanges s cs
  | .track i now => (trackFileOpen s i now, none)

/-- Run a sequence of operations, keeping the (possibly partially mutated)
state of a throwing call. -/
def runOps (s : EngineState) (ops : List Op) : EngineState :=
  ops.foldl (fun s op => (applyOp s op).1) s

/-- True when every operation in the sequence completes without throwing. -/
def runOpsOk : EngineState → List Op → Bool
  | _, [] => true
  | s, op :: ops => (applyOp s op).2.isNone && runOpsOk (applyOp s op).1 ops

/-- The id set of the inverted index. -/
def msIdSet (s : EngineState) : Finset String := (msIds s.miniSearch).toFinset

/-- The key set of the metadata map. -/
def mapKeySet (s : EngineState) : Finset String := (s.fileMap.map (·.1)).toFinset

/-! ### Engine startup

The engine `initialize()` reads the persisted snapshot (two independent
keys: the serialized MiniSearch index and the serialized metadata map) and
deserializes each with its own error handling: `MiniSearch.loadJSON` failing
is caught and replaced by a fresh empty index, `JSON.parse` of the metadata
failing is caught and replaced by an empty map.  The two deserializers are
external library calls, modelled as parameters returning `none` on a thrown
parse error.  Storage is modelled as the two optional stored strings
(`none` means the key does not exist). -/

/-- The engine `initialize()`.  When both snapshot keys exist it loads
them, deserializing each component under its own `catch`; otherwise (or when
loading throws, which the outer `catch` turns into a cleared store) it starts
fresh.  In every case it finishes with `isReady = true` and never rethrows. -/
def initService (indexData metadataData : Option String)
    (loadIndexJSON : String → Option MiniSearch)
    (parseMetadata : String → Option (List (String × FileMetadata))) :
    EngineState :=
  match indexData, metadataData with
  | some iData, some mData =>
    { miniSearch := (loadIndexJSON iData).getD []
      fileMap := (parseMetadata mData).getD []
      isReady := true }
  | _, _ => { miniSearch := [], fileMap := [], isReady := true }

/-! ### The change-sync coordinator (`changeSync.ts`) -/

/-- One page of the Drive changes feed, as returned by
`googleDriveService.getChanges`. -/
structure ChangesPage where
  changes : List Change
  nextPageToken : Option String := none
  newStartPageToken : Option String := none
deriving Repr, DecidableEq

/-- The Source Connector operations used by the sync coordinator; fallible
remote calls return `Except`. -/
structure DriveConnector where
  isAuthenticated : Bool
  getStartPageToken : Except String String
  getChanges : String → Except String ChangesPage

/-- State owned by the sync coordinator: the re-entrancy flag, the persisted
change cursor, and the search engine it mutates. -/
structure SyncState where
  isSyncing : Bool
  changeToken : Option String
  engine : EngineState
deriving Repr, DecidableEq

/-- The result shape of `syncChanges`. -/
structure SyncResult where
  success : Bool
  changesProcessed : Nat
  error : Option String := none
deriving Repr, DecidableEq

/-- Externally visible effects of a sync run, in program order: persisting a
change cursor, and applying a batch of changes to the index. -/
inductive SyncEvent where
  | saveCursor (token : String)
  | applyChanges (changes : List Change)
deriving Repr, DecidableEq

/-- The change filter inside the pagination loop of `syncChanges`: removal
entries are kept, entries without file data are dropped, folders are
dropped. -/
def relevantChange (c : Change) : Bool :=
  if c.removed then true
  else
    match c.file with
    | none => false
    | some f => f.mimeType != "application/vnd.google-apps.folder"

/-- The pagination loop of `syncChanges`, accumulating filtered changes.
A terminal `newStartPageToken` is persisted at once (before any change is
applied) and stops the loop; a `nextPageToken` continues; neither stops the
loop without persisting; a page-fetch error is caught and breaks the loop.
`fuel` bounds the number of page fetches (the claims quantify over it). -/
def syncFetchLoop (conn : DriveConnector) :
    Nat → String → List Change → SyncState → List SyncEvent →
    List Change × SyncState × List SyncEvent
  | 0, _, acc, st, evs => (acc, st, evs)
  | fuel + 1, tok, acc, st, evs =>
    match conn.getChanges tok with
    | .error _ => (acc, st, evs)
    | .ok page =>
      let acc' := acc ++ page.changes.filter relevantChange
      match page.newStartPageToken with
      | some t =>
        (acc', { st with changeToken := some t }, evs ++ [.saveCursor t])
      | none =>
        match page.nextPageToken with
        | some t2 => syncFetchLoop conn fuel t2 acc' st evs
        | none => (acc', st, evs)

/-- The coordinator `syncChanges` (`syncOnce`): re-entrancy guard, then
authentication guard, then either first-run cursor bootstrap or cursor-driven
pagination followed by one `processChanges` pass over the accumulated
changes.  Returns the result, the final state, and the emitted effects. -/
def syncChanges (conn : DriveConnector) (fuel : Nat) (s : SyncState) :
    SyncResult × SyncState × List SyncEvent :=
  if s.isSyncing then
    ({ success := false, changesProcessed := 0,
       error := some "Sync already in progress" }, s, [])
  else if !conn.isAuthenticated then
    ({ success := false, changesProcessed := 0,
       error := some "Not authenticated" }, s, [])
  else
    match s.changeToken with
    | none =>
      match conn.getStartPageToken with
      | .error e =>
        ({ success := false, changesProcessed := 0, error := some e },
         { s with isSyncing := false }, [])
      | .ok tok =>
        ({ success := true, changesProcessed := 0 },
         { s with isSyncing := false, changeToken := some tok },
         [.saveCursor tok])
    | some tok =>
      let r := syncFetchLoop conn fuel tok [] { s with isSyncing := true } []
      let allChanges := r.1
      let st := r.2.1
      let evs := r.2.2
      if allChanges.length > 0 then
        ({ success := true, changesProcessed := allChanges.length },
         { st with isSyncing := false,
                   engine := (processChanges st.engine allChanges).1 },
         evs ++ [.applyChanges allChanges])
      else
        ({ success := true, changesProcessed := 0 },
         { st with isSyncing := false }, evs)

/-- The claimed temporal property of the effect trace of a run: a cursor is
persisted only after the batch of changes fetched under it has been applied,
so every `saveCursor` comes after every (non-empty) `applyChanges`. -/
def cursorSavedAfterApply (evs : List SyncEvent) : Prop :=
  ∀ i j t cs, evs.get? i = some (.saveCursor t) →
    evs.get? j = some (.applyChanges cs) → cs ≠ [] → j < i

/-- Characterization of the effect traces `syncChanges` can emit: at most one
cursor save and at most one batch application, with the save first. -/
def syncTraceShape (evs : List SyncEvent) : Prop :=
  evs = [] ∨ (∃ t, evs = [.saveCursor t]) ∨ (∃ cs, evs = [.applyChanges cs]) ∨
    (∃ t cs, evs = [.saveCursor t, .applyChanges cs])

/-! ### The full-rebuild job (`indexGoogleDrive.ts`) -/

/-- One page of the paginated full listing, as returned by
`googleDriveService.listFiles`; `hasNext` is whether a `nextPageToken` was
returned. -/
structure ListPage where
  files : List FileMetadata
  hasNext : Bool
deriving Repr, DecidableEq

/-- The result shape of the rebuild job. -/
structure IndexJobResult where
  success : Bool
  filesIndexed : Nat
  errors : List String
deriving Repr, DecidableEq

/-- The page-fetch loop of the rebuild job.  `listPage n` is the n-th page
fetch.  A successful page appends its files and continues while a next-page
token is present.  A failed fetch records an error and then either aborts the
whole job (when more than 5 errors have accumulated) or breaks out of the
loop, proceeding with what was fetched so far.  The boolean result is the
abort flag. -/
def fetchAllPages (listPage : Nat → Except String ListPage) :
    Nat → Nat → List FileMetadata → List String →
    List FileMetadata × List String × Bool
  | 0, _, acc, errs => (acc, errs, false)
  | fuel + 1, pageCount, acc, errs =>
    match listPage pageCount with
    | .ok page =>
      let acc' := acc ++ page.files
      if page.hasNext then fetchAllPages listPage fuel (pageCount + 1) acc' errs
      else (acc', errs, false)
    | .error e =>
      let errs' := errs ++ ["Failed to fetch page " ++ toString pageCount ++ ": " ++ e]
      if errs'.length > 5 then (acc, errs', true) else (acc, errs', false)

/-- Fixed-size batches of 100 files, as sliced by the index-building loop. -/
def chunksAux : Nat → List FileMetadata → List (List FileMetadata)
  | 0, _ => []
  | _, [] => []
  | fuel + 1, x :: xs => ((x :: xs).take 100) :: chunksAux fuel ((x :: xs).drop 100)

/-- Slice a file list into batches of 100. -/
def chunks100 (l : List FileMetadata) : List (List FileMetadata) :=
  chunksAux l.length l

/-- The batch-indexing loop of the rebuild job: each batch is added with
`addFiles`; a batch failure is recorded and the loop continues with the next
batch. -/
def batchLoop : EngineState → List (List FileMetadata) → Nat → List String →
    EngineState × Nat × List String
  | s, [], n, errs => (s, n, errs)
  | s, b :: bs, n, errs =>
    match addFiles s b with
    | (s', none) => batchLoop s' bs (n + b.length) errs
    | (s', some e) =>
      batchLoop s' bs n (errs ++ ["Failed to index batch: " ++ e])

/-- The rebuild job `indexGoogleDriveJob`: skips when an index already exists
and `force` is off; requires authentication; fetches all pages (see
`fetchAllPages`); reports zero files as success; otherwise clears the index
and re-adds everything in batches of 100, succeeding iff at least one file
was indexed.  `s` is the engine state after `initialize()`. -/
def indexGoogleDriveJob (listPage : Nat → Except String ListPage)
    (auth : Bool) (force : Bool) (s : EngineState) (fuel : Nat) :
    IndexJobResult × EngineState :=
  if !force && s.miniSearch.length > 0 then
    ({ success := true, filesIndexed := 0,
       errors := ["Index already exists - skipped"] }, s)
  else if !auth then
    ({ success := false, filesIndexed := 0,
       errors := ["Indexing job failed: Error: Google Drive not authenticated. Please authenticate first."] }, s)
  else
    let r := fetchAllPages listPage fuel 0 [] []
    let allFiles := r.1
    let errs := r.2.1
    if r.2.2 then
      ({ success := false, filesIndexed := 0,
         errors := errs ++ ["Indexing job failed: Error: Too many page fetch failures"] }, s)
    else if allFiles.length = 0 then
      ({ success := true, filesIndexed := 0, errors := errs ++ ["No files found"] }, s)
    else
      let s1 := (replaceIndex s []).1
      let rb := batchLoop s1 (chunks100 allFiles) 0 errs
      ({ success := rb.2.1 > 0, filesIndexed := rb.2.1, errors := rb.2.2 }, rb.1)

/-! ### Ranking (the `boostDocument` callback of `search`)

MiniSearch multiplies the text-relevance score of each matched document by
the factor returned by the `boostDocument` option, so the final ranking
score is `textRelevance * boostDocument file`.  The callback uses the host
real-valued `Math.exp`, `Math.log` and `Date` parsing; these are passed as
parameters (`mexp`, `mlog`, `dateMs`), over rationals. -/

/-- The `boostDocument` callback: starts at 1; a present `modifiedTime` adds
0.3 times an exponential decay of the age in days over 30 days; a truthy
`openCount` (present and non-zero) adds 0.2 times `log (1 + openCount)`. -/
def boostDocument (mexp mlog : ℚ → ℚ) (dateMs : String → ℚ) (now : ℚ)
    (file : FileMetadata) : ℚ :=
  let b1 : ℚ := 1
  let b2 : ℚ :=
    match file.modifiedTime with
    | some mt =>
      let daysSinceModified := (now - dateMs mt) / (1000 * 60 * 60 * 24)
      b1 + mexp (-daysSinceModified / 30) * 0.3
    | none => b1
  match file.openCount with
  | some n => if n ≠ 0 then b2 + mlog (1 + (n : ℚ)) * 0.2 else b2
  | none => b2

/-- The final ranking score of a matched document: its text-relevance score
multiplied by the `boostDocument` factor. -/
def rankingScore (mexp mlog : ℚ → ℚ) (dateMs : String → ℚ)
    (now textRelevance : ℚ) (file : FileMetadata) : ℚ :=
  textRelevance * boostDocument mexp mlog dateMs now file

/-- Modelled from the spec: Score = textRelevance × (1 + 0.3·recencyBoost +
0.2·frequencyBoost), where recencyBoost = e^(−ageDays/30) and
frequencyBoost = ln(1 + openCount); a record with no `modifiedAt` contributes
no recency term and a record with no `openCount` contributes no frequency
term. -/
def specScore (mexp mlog : ℚ → ℚ) (dateMs : String → ℚ)
    (now textRelevance : ℚ) (file : FileMetadata) : ℚ :=
  let recencyTerm : ℚ :=
    match file.modifiedTime with
    | some mt => 0.3 * mexp (-((now - dateMs mt) / (1000 * 60 * 60 * 24) / 30))
    | none => 0
  let frequencyTerm : ℚ :=
    match file.openCount with
    | some n => 0.2 * mlog (1 + (n : ℚ))
    | none => 0
  textRelevance * (1 + recencyTerm + frequencyTerm)

/-! ### Pointwise form of the index/metadata invariant -/

/-- The quiescent-state invariant: the set of ids in the inverted index
equals the set of keys of the metadata map. -/
def indexConsistent (s : EngineState) : Prop :=
  ∀ x : String, x ∈ msIds s.miniSearch ↔ x ∈ s.fileMap.map (·.1)

/-! ### Concrete fixtures used by counterexamples and witnesses -/

/-- A concrete spreadsheet record. -/
def fA : FileMetadata :=
  { id := "a", name := "Budget.xlsx", mimeType := "application/vnd.google-apps.spreadsheet" }

/-- A concrete document record. -/
def fB : FileMetadata :=
  { id := "b", name := "Notes.docx", mimeType := "application/vnd.google-apps.document" }

/-- A ready engine holding exactly the two records `fA` and `fB`. -/
def sAB : EngineState := (addFiles emptyState [fA, fB]).1

/-- A connector that is authenticated, hands out the start token `tok0`, and
serves a single change page carrying one change and a terminal cursor
`tok2`. -/
def conn1 : DriveConnector :=
  { isAuthenticated := true
    getStartPageToken := .ok "tok0"
    getChanges := fun _ =>
      .ok { changes := [{ fileId := "a", removed := false, file := some fA }]
            newStartPageToken := some "tok2" } }

/-- Sync state with a persisted cursor and no sync in progress. -/
def sync1 : SyncState := { isSyncing := false, changeToken := some "tok1", engine := emptyState }

/-- Sync state with no persisted cursor (first run). -/
def sync0 : SyncState := { isSyncing := false, changeToken := none, engine := emptyState }

/-- Sync state captured while a sync is in progress. -/
def syncBusy : SyncState := { isSyncing := true, changeToken := some "tok1", engine := emptyState }

/-- File record used by the ten-page rebuild fixture. -/
def mkFile (n : Nat) : FileMetadata :=
  { id := "f" ++ toString n, name := "file" ++ toString n, mimeType := "text/plain" }

/-- A ten-page source listing in which the fetches of pages 2 and 6 fail and
every other page carries one file. -/
def tenPages : Nat → Except String ListPage := fun n =>
  if n == 2 || n == 6 then .error "network error"
  else .ok { files := [mkFile n], hasNext := n < 9 }

/-- A deserializer that always fails, modelling a corrupt serialized index. -/
def badIndexParse : String → Option MiniSearch := fun _ => none

/-- A metadata deserializer that always fails. -/
def badMetaParse : String → Option (List (String × FileMetadata)) := fun _ => none

/-- A metadata deserializer that succeeds with one entry, modelling a valid
metadata snapshot. -/
def okMetaParse : String → Option (List (String × FileMetadata)) := fun _ => some [("a", fA)]

/-- A fully populated record exercising both ranking boosts. -/
def fC : FileMetadata :=
  { id := "c", name := "Q3 Report.pdf", mimeType := "application/pdf",
    modifiedTime := some "2024-06-01T00:00:00Z", openCount := some 3 }

/-- Witness stand-in for `Math.exp`. -/
def wexp : ℚ → ℚ := fun x => x + 2

/-- Witness stand-in for `Math.log`; sends 1 to 0 as the logarithm does. -/
def wlog : ℚ → ℚ := fun x => x - 1

/-- Witness stand-in for `Date` parsing. -/
def wdate : String → ℚ := fun _ => 0

end Spotlight

namespace Spotlight

/-- C6 -/
theorem rankingScore_eq_specScore (mexp mlog : ℚ → ℚ) (dateMs : String → ℚ)
    (now textRelevance : ℚ) (file : FileMetadata) (hlog : mlog 1 = 0) :
    rankingScore mexp mlog dateMs now textRelevance file =
      specScore mexp mlog dateMs now textRelevance file := by
  unfold rankingScore boostDocument specScore
  cases hmt : file.modifiedTime with
  | none =>
    cases hoc : file.openCount with
    | none => simp only [hmt, hoc]; ring
    | some n =>
      by_cases hn : n = 0
      · subst hn
        simp only [hmt, hoc]
        rw [if_neg (by norm_num), Nat.cast_zero, add_zero, hlog]
        ring
      · simp only [hmt, hoc, if_pos hn]
        ring
  | some mt =>
    have harg : -((now - dateMs mt) / (1000 * 60 * 60 * 24)) / 30 =
        -((now - dateMs mt) / (1000 * 60 * 60 * 24) / 30) := by ring
    cases hoc : file.openCount with
    | none => simp only [hmt, hoc, harg]; ring
    | some n =>
      by_cases hn : n = 0
      · subst hn
        simp only [hmt, hoc, harg]
        rw [if_neg (by norm_num), Nat.cast_zero, add_zero, hlog]
        ring
      · simp only [hmt, hoc, harg, if_pos hn]
        ring

/-- C10 -/
theorem preinit_mutators (s : EngineState) (h : s.isReady = false)
    (files1 files2 files3 : List FileMetadata) (fileIds : List String) :
    addFiles s files1 = (s, some notInitializedMsg) ∧
    updateFiles s files2 = (s, none) ∧
    removeFiles s fileIds = (s, none) ∧
    replaceIndex s files3 = (s, none) := by
  unfold addFiles updateFiles removeFiles replaceIndex
  simp [h]

theorem preinit_mutators_witness :
    addFiles uninitState [fA] = (uninitState, some notInitializedMsg) ∧
    updateFiles uninitState [fA] = (uninitState, none) ∧
    removeFiles uninitState ["a"] = (uninitState, none) ∧
    replaceIndex uninitState [fB] = (uninitState, none) :=
  preinit_mutators uninitState rfl [fA] [fA] [fB] ["a"]

/-- C9 counterexample -/
theorem initService_corrupt_counterexample :
    (initService (some "idx") (some "meta") badIndexParse okMetaParse).isReady = true ∧
    (initService (some "idx") (some "meta") badIndexParse okMetaParse).miniSearch = [] ∧
    (initService (some "idx") (some "meta") badIndexParse okMetaParse).fileMap ≠ [] := by
  decide

/-- C9 amended -/
theorem initService_ready_discards_corrupt (indexData metadataData : Option String)
    (loadIndexJSON : String → Option MiniSearch)
    (parseMetadata : String → Option (List (String × FileMetadata))) :
    (initService indexData metadataData loadIndexJSON parseMetadata).isReady = true ∧
    (indexData.bind loadIndexJSON = none →
      (initService indexData metadataData loadIndexJSON parseMetadata).miniSearch = []) ∧
    (metadataData.bind parseMetadata = none →
      (initService indexData metadataData loadIndexJSON parseMetadata).fileMap = []) := by
  cases indexData with
  | none => cases metadataData <;> simp [initService]
  | some iData =>
    cases metadataData with
    | none => simp [initService]
    | some mData =>
      refine ⟨rfl, ?_, ?_⟩
      · intro h
        rw [Option.some_bind] at h
        simp [initService, h]
      · intro h
        rw [Option.some_bind] at h
        simp [initService, h]

theorem initService_ready_witness :
    (initService (some "idx") (some "meta") badIndexParse badMetaParse).isReady = true ∧
    (initService (some "idx") (some "meta") badIndexParse badMetaParse).miniSearch = [] ∧
    (initService (some "idx") (some "meta") badIndexParse badMetaParse).fileMap = [] := by
  obtain ⟨h1, h2, h3⟩ :=
    initService_ready_discards_corrupt (some "idx") (some "meta") badIndexParse badMetaParse
  exact ⟨h1, h2 rfl, h3 rfl⟩

/-- C7 -/
theorem syncChanges_bootstrap (conn : DriveConnector) (fuel : Nat) (s : SyncState)
    (tok : String) (hs : s.isSyncing = false) (ha : conn.isAuthenticated = true)
    (hc : s.changeToken = none) (ht : conn.getStartPageToken = .ok tok) :
    syncChanges conn fuel s =
      ({ success := true, changesProcessed := 0, error := none },
       { s with changeToken := some tok }, [.saveCursor tok]) := by
  obtain ⟨sy, ct, en⟩ := s
  simp only at hs hc
  subst hs; subst hc
  unfold syncChanges
  simp [ha, ht]

theorem syncChanges_bootstrap_witness :
    syncChanges conn1 5 sync0 =
      ({ success := true, changesProcessed := 0, error := none },
       { sync0 with changeToken := some "tok0" }, [.saveCursor "tok0"]) :=
  syncChanges_bootstrap conn1 5 sync0 "tok0" rfl rfl rfl rfl

/-- C8 -/
theorem syncChanges_reentrancy (conn : DriveConnector) (fuel : Nat) (s : SyncState) :
    (s.isSyncing = true →
      syncChanges conn fuel s =
        ({ success := false, changesProcessed := 0,
           error := some "Sync already in progress" }, s, [])) ∧
    (s.isSyncing = false → (syncChanges conn fuel s).2.1.isSyncing = false) := by
  constructor
  · intro h
    unfold syncChanges
    simp [h]
  · intro h
    rcases hauth : conn.isAuthenticated with _ | _
    · simp [syncChanges, h, hauth]
    · rcases hct : s.changeToken with _ | tok
      · rcases hst : conn.getStartPageToken with e | t <;>
          simp [syncChanges, h, hauth, hct, hst]
      · simp only [syncChanges, h, hauth, hct, Bool.false_eq_true, if_false,
          Bool.not_true]
        split <;> rfl

theorem syncChanges_reentrancy_witness :
    syncChanges conn1 5 syncBusy =
      ({ success := false, changesProcessed := 0,
         error := some "Sync already in progress" }, syncBusy, []) ∧
    (syncChanges conn1 5 sync1).2.1.isSyncing = false :=
  ⟨(syncChanges_reentrancy conn1 5 syncBusy).1 rfl,
   (syncChanges_reentrancy conn1 5 sync1).2 rfl⟩

end Spotlight

namespace Spotlight

theorem msHas_iff (ms : MiniSearch) (i : String) : msHas ms i = true ↔ i ∈ msIds ms := by
  simp [msHas, List.elem_eq_mem, List.contains]

theorem msHas_eq_false_iff (ms : MiniSearch) (i : String) :
    msHas ms i = false ↔ i ∉ msIds ms := by
  rw [← msHas_iff]
  cases msHas ms i <;> simp

theorem mapHas_iff (m : List (String × FileMetadata)) (k : String) :
    mapHas m k = true ↔ k ∈ m.map (·.1) := by
  simp [mapHas, List.any_eq_true, beq_iff_eq]

theorem mem_msIds_filter_ne (ms : MiniSearch) (i x : String) :
    x ∈ msIds (ms.filter (fun d => d.id != i)) ↔ x ∈ msIds ms ∧ x ≠ i := by
  simp only [msIds, List.mem_map, List.mem_filter, bne_iff_ne]
  constructor
  · rintro ⟨d, ⟨hd, hne⟩, rfl⟩; exact ⟨⟨d, hd, rfl⟩, hne⟩
  · rintro ⟨⟨d, hd, rfl⟩, hne⟩; exact ⟨d, ⟨hd, hne⟩, rfl⟩

theorem msHas_filter_self (ms : MiniSearch) (i : String) :
    msHas (ms.filter (fun d => d.id != i)) i = false := by
  rw [msHas_eq_false_iff, mem_msIds_filter_ne]
  simp

theorem mem_msIds_append (ms l : MiniSearch) (x : String) :
    x ∈ msIds (ms ++ l) ↔ x ∈ msIds ms ∨ x ∈ msIds l := by
  simp [msIds]

theorem msAddAll_ok_eq (ds : List SearchableFile) : ∀ ms ms' : MiniSearch,
    msAddAll ms ds = (ms', none) → ms' = ms ++ ds := by
  induction ds with
  | nil =>
    intro ms ms' h
    simp only [msAddAll, Prod.mk.injEq] at h
    simp [h.1.symm]
  | cons d ds ih =>
    intro ms ms' h
    unfold msAddAll at h
    split at h
    · simp at h
    · have := ih (ms ++ [d]) ms' h
      simp [this]

theorem msAddAll_ok_of (ds : List SearchableFile) : ∀ ms : MiniSearch,
    (ds.map (·.id)).Nodup → (∀ d ∈ ds, msHas ms d.id = false) →
    msAddAll ms ds = (ms ++ ds, none) := by
  induction ds with
  | nil => intro ms _ _; simp [msAddAll]
  | cons d ds ih =>
    intro ms hnd hdis
    unfold msAddAll
    rw [hdis d (List.mem_cons_self d ds)]
    simp only [Bool.false_eq_true, if_false]
    rw [ih (ms ++ [d]) (by simpa using hnd.of_cons) ?_]
    · simp
    · intro d' hd'
      rw [msHas_eq_false_iff, mem_msIds_append]
      have h1 : d'.id ∉ msIds ms := (msHas_eq_false_iff ms d'.id).1 (hdis d' (List.mem_cons_of_mem d hd'))
      have h2 : d'.id ≠ d.id := by
        simp only [List.map_cons, List.nodup_cons] at hnd
        intro hEq
        exact hnd.1 (hEq ▸ (List.mem_map_of_mem (·.id) hd'))
      rintro (hmem | hmem)
      · exact h1 hmem
      · exact h2 (by simpa [msIds] using hmem)

theorem msDiscardAll_ok_mem (is : List String) : ∀ ms ms' : MiniSearch,
    msDiscardAll ms is = (ms', none) →
    ∀ x, x ∈ msIds ms' ↔ x ∈ msIds ms ∧ x ∉ is := by
  induction is with
  | nil =>
    intro ms ms' h x
    simp only [msDiscardAll, Prod.mk.injEq] at h
    simp [h.1.symm]
  | cons i is ih =>
    intro ms ms' h x
    unfold msDiscardAll at h
    split at h
    · rw [ih _ _ h x, mem_msIds_filter_ne]
      simp only [List.mem_cons]
      tauto
    · simp at h

theorem contains_cons_not (i : String) (is : List String) (x : String) :
    ((!(is.contains x)) && (x != i)) = !((i :: is).contains x) := by
  by_cases h1 : x = i <;> by_cases h2 : x ∈ is <;>
    simp [h1, h2, List.contains, List.elem_eq_mem]

theorem msDiscardAll_ok_of (is : List String) : ∀ ms : MiniSearch,
    is.Nodup → (∀ i ∈ is, msHas ms i = true) →
    msDiscardAll ms is = (ms.filter (fun d => !(is.contains d.id)), none) := by
  induction is with
  | nil =>
    intro ms _ _
    simp [msDiscardAll, List.contains, List.elem_eq_mem]
  | cons i is ih =>
    intro ms hnd hpres
    unfold msDiscardAll
    rw [hpres i (List.mem_cons_self i is)]
    simp only [if_true]
    rw [ih (ms.filter (fun d => d.id != i)) hnd.of_cons ?_]
    · rw [List.filter_filter]
      congr 1
      apply List.filter_congr
      intro d _
      exact contains_cons_not i is d.id
    · intro j hj
      have hji : j ≠ i := by
        rintro rfl
        exact (List.nodup_cons.1 hnd).1 hj
      rw [msHas_iff, mem_msIds_filter_ne]
      exact ⟨(msHas_iff ms j).1 (hpres j (List.mem_cons_of_mem i hj)), hji⟩

theorem foldl_mapDelete_eq_filter (ids : List String) : ∀ m,
    ids.foldl mapDelete m = m.filter (fun p => !(ids.contains p.1)) := by
  induction ids with
  | nil => intro m; simp [List.contains, List.elem_eq_mem]
  | cons i is ih =>
    intro m
    simp only [List.foldl_cons]
    rw [ih (mapDelete m i)]
    unfold mapDelete
    rw [List.filter_filter]
    apply List.filter_congr
    intro p _
    exact contains_cons_not i is p.1

theorem keys_mapSet (m : List (String × FileMetadata)) (k : String) (v : FileMetadata)
    (x : String) :
    x ∈ (mapSet m k v).map (·.1) ↔ x ∈ m.map (·.1) ∨ x = k := by
  unfold mapSet
  split
  · next hhas =>
    have hkeys : (m.map (fun p => if p.1 == k then (k, v) else p)).map (·.1) = m.map (·.1) := by
      rw [List.map_map]
      apply List.map_eq_map_iff.mpr
      intro p _
      by_cases h : p.1 = k <;> simp [h]
    rw [hkeys]
    have hk : k ∈ m.map (·.1) := (mapHas_iff m k).1 hhas
    constructor
    · exact Or.inl
    · rintro (h | rfl)
      · exact h
      · exact hk
  · simp [List.mem_append, or_comm]

theorem keys_foldl_mapSet (files : List FileMetadata) : ∀ m (x : String),
    x ∈ (files.foldl (fun m f => mapSet m f.id f) m).map (·.1) ↔
      x ∈ m.map (·.1) ∨ x ∈ files.map (·.id) := by
  induction files with
  | nil => simp
  | cons f fs ih =>
    intro m x
    simp only [List.foldl_cons]
    rw [ih (mapSet m f.id f) x, keys_mapSet]
    simp only [List.map_cons, List.mem_cons]
    tauto

theorem mapHas_mapSet_self (m : List (String × FileMetadata)) (k : String) (v : FileMetadata) :
    mapHas (mapSet m k v) k = true := by
  rw [mapHas_iff]
  exact (keys_mapSet m k v k).2 (Or.inr rfl)

theorem mapSet_of_has (m : List (String × FileMetadata)) (k : String) (v : FileMetadata)
    (h : mapHas m k = true) :
    mapSet m k v = m.map (fun p => if p.1 == k then (k, v) else p) := by
  unfold mapSet
  rw [if_pos h]

theorem mapSet_of_not_has (m : List (String × FileMetadata)) (k : String) (v : FileMetadata)
    (h : mapHas m k = false) :
    mapSet m k v = m ++ [(k, v)] := by
  unfold mapSet
  rw [h]
  simp

theorem mapSet_mapSet_same (m : List (String × FileMetadata)) (k : String) (v : FileMetadata) :
    mapSet (mapSet m k v) k v = mapSet m k v := by
  rw [mapSet_of_has (mapSet m k v) k v (mapHas_mapSet_self m k v)]
  by_cases h : mapHas m k = true
  · rw [mapSet_of_has m k v h, List.map_map]
    apply List.map_eq_map_iff.mpr
    intro p _
    by_cases hpk : p.1 = k <;> simp [hpk]
  · have h' : mapHas m k = false := by simpa using h
    rw [mapSet_of_not_has m k v h']
    have hpk : ∀ p ∈ m, p.1 ≠ k := by
      intro p hp hEq
      have hk : k ∈ m.map (·.1) := hEq ▸ List.mem_map_of_mem (·.1) hp
      have hh := (mapHas_iff m k).2 hk
      rw [h'] at hh
      exact Bool.false_ne_true hh
    rw [List.map_append]
    have hm : m.map (fun p => if p.1 == k then (k, v) else p) = m := by
      calc m.map (fun p => if p.1 == k then (k, v) else p) = m.map id := by
            apply List.map_eq_map_iff.mpr
            intro p hp
            simp [hpk p hp]
        _ = m := List.map_id m
    rw [hm]
    simp

end Spotlight

namespace Spotlight

theorem updateFiles_singleton_eq (s : EngineState) (f : FileMetadata)
    (hready : s.isReady = true) (hhas : msHas s.miniSearch f.id = true) :
    updateFiles s [f] =
      ({ s with
          miniSearch := s.miniSearch.filter (fun d => d.id != f.id) ++ [toSearchable f]
          fileMap := mapSet s.fileMap f.id f }, none) := by
  unfold updateFiles
  simp only [hready, Bool.not_true, Bool.false_eq_true, if_false]
  have hdisc : msDiscardAll s.miniSearch (([f] : List FileMetadata).map (·.id)) =
      (s.miniSearch.filter (fun d => d.id != f.id), none) := by
    show msDiscardAll s.miniSearch [f.id] = _
    unfold msDiscardAll
    rw [hhas]
    simp [msDiscardAll]
  rw [hdisc]
  unfold addFiles
  simp only [hready, Bool.not_true, Bool.false_eq_true, if_false]
  have hadd : msAddAll (s.miniSearch.filter (fun d => d.id != f.id))
      (([f] : List FileMetadata).map toSearchable) =
      (s.miniSearch.filter (fun d => d.id != f.id) ++ [toSearchable f], none) := by
    apply msAddAll_ok_of
    · simp
    · intro d hd
      simp only [List.map_cons, List.map_nil, List.mem_singleton] at hd
      subst hd
      exact msHas_filter_self s.miniSearch f.id
  rw [hadd]
  rfl

theorem msHas_filter_not_contains (ms : MiniSearch) (ids : List String) (x : String)
    (hx : x ∈ ids) :
    msHas (ms.filter (fun d => !(ids.contains d.id))) x = false := by
  rw [msHas_eq_false_iff]
  intro hmem
  simp only [msIds, List.mem_map, List.mem_filter] at hmem
  obtain ⟨d, ⟨_, hcon⟩, rfl⟩ := hmem
  simp only [Bool.not_eq_eq_eq_not, Bool.not_true, List.contains, List.elem_eq_mem,
    decide_eq_false_iff_not] at hcon
  exact hcon hx

theorem updateFiles_list_eq (s : EngineState) (files : List FileMetadata)
    (hready : s.isReady = true)
    (hnd : (files.map (·.id)).Nodup)
    (hpres : ∀ g ∈ files, msHas s.miniSearch g.id = true) :
    updateFiles s files =
      ({ s with
          miniSearch := s.miniSearch.filter (fun d => !((files.map (·.id)).contains d.id))
              ++ files.map toSearchable
          fileMap := files.foldl (fun m g => mapSet m g.id g) s.fileMap }, none) := by
  unfold updateFiles
  simp only [hready, Bool.not_true, Bool.false_eq_true, if_false]
  rw [msDiscardAll_ok_of (files.map (·.id)) s.miniSearch hnd ?pres]
  case pres =>
    intro i hi
    simp only [List.mem_map] at hi
    obtain ⟨g, hg, rfl⟩ := hi
    exact hpres g hg
  unfold addFiles
  simp only [hready, Bool.not_true, Bool.false_eq_true, if_false]
  rw [msAddAll_ok_of (files.map toSearchable) _ ?nd ?dis]
  case nd =>
    have : (files.map toSearchable).map (·.id) = files.map (·.id) := by
      simp [toSearchable, Function.comp]
    rw [this]
    exact hnd
  case dis =>
    intro d hd
    simp only [List.mem_map] at hd
    obtain ⟨g, hg, rfl⟩ := hd
    exact msHas_filter_not_contains s.miniSearch (files.map (·.id)) (toSearchable g).id
      (List.mem_map_of_mem (·.id) hg)

theorem countP_filter_ne_append_self (ms : MiniSearch) (f : FileMetadata) :
    ((ms.filter (fun d => d.id != f.id)) ++ [toSearchable f]).countP
      (fun d => d.id == f.id) = 1 := by
  rw [List.countP_append]
  have h0 : (ms.filter (fun d => d.id != f.id)).countP (fun d => d.id == f.id) = 0 := by
    apply List.countP_eq_zero.mpr
    intro d hd
    have hne := (List.mem_filter.1 hd).2
    simp only [bne_iff_ne, ne_eq] at hne
    simp [hne]
  rw [h0]
  simp [toSearchable, List.countP_cons]

theorem filter_ne_append_self_eq (ms : MiniSearch) (f : FileMetadata) :
    ((ms.filter (fun d => d.id != f.id)) ++ [toSearchable f]).filter
      (fun d => d.id != f.id) = ms.filter (fun d => d.id != f.id) := by
  rw [List.filter_append, List.filter_filter]
  have h1 : ms.filter (fun d => (d.id != f.id) && (d.id != f.id)) =
      ms.filter (fun d => d.id != f.id) := by
    apply List.filter_congr
    intro d _
    cases h : (d.id != f.id) <;> simp [h]
  have h2 : ([toSearchable f] : MiniSearch).filter (fun d => d.id != f.id) = [] := by
    simp [toSearchable]
  rw [h1, h2, List.append_nil]

/-- C4 (amended). -/
theorem updateFiles_replaces_and_idempotent (s : EngineState)
    (files : List FileMetadata) (f : FileMetadata)
    (hready : s.isReady = true)
    (hnd : (files.map (·.id)).Nodup)
    (hpres : ∀ g ∈ files, msHas s.miniSearch g.id = true)
    (hf : msHas s.miniSearch f.id = true) :
    updateFiles s files =
      ({ s with
          miniSearch := s.miniSearch.filter (fun d => !((files.map (·.id)).contains d.id))
              ++ files.map toSearchable
          fileMap := files.foldl (fun m g => mapSet m g.id g) s.fileMap }, none) ∧
    (updateFiles s [f]).1.miniSearch.countP (fun d => d.id == f.id) = 1 ∧
    updateFiles (updateFiles s [f]).1 [f] = ((updateFiles s [f]).1, none) := by
  have h1 := updateFiles_singleton_eq s f hready hf
  refine ⟨updateFiles_list_eq s files hready hnd hpres, ?_, ?_⟩
  · rw [h1]
    exact countP_filter_ne_append_self s.miniSearch f
  · have hready1 : (updateFiles s [f]).1.isReady = true := by
      rw [h1]
      exact hready
    have hhas1 : msHas (updateFiles s [f]).1.miniSearch f.id = true := by
      rw [h1]
      show msHas (s.miniSearch.filter (fun d => d.id != f.id) ++ [toSearchable f]) f.id = true
      rw [msHas_iff, mem_msIds_append]
      right
      simp [msIds, toSearchable]
    rw [updateFiles_singleton_eq _ f hready1 hhas1]
    rw [h1]
    dsimp only
    rw [filter_ne_append_self_eq, mapSet_mapSet_same]

/-- C4 counterexample. -/
theorem updateFiles_absent_id_counterexample :
    (updateFiles emptyState [fA]).2.isSome = true ∧
    (updateFiles emptyState [fA]).1.miniSearch.countP (fun d => d.id == "a") = 0 := by
  decide

theorem updateFiles_replaces_witness :
    updateFiles sAB [fA, fB] =
      ({ sAB with
          miniSearch := sAB.miniSearch.filter
              (fun d => !((([fA, fB].map (·.id)) : List String).contains d.id))
              ++ [fA, fB].map toSearchable
          fileMap := [fA, fB].foldl (fun m g => mapSet m g.id g) sAB.fileMap }, none) ∧
    (updateFiles sAB [fA]).1.miniSearch.countP (fun d => d.id == fA.id) = 1 ∧
    updateFiles (updateFiles sAB [fA]).1 [fA] = ((updateFiles sAB [fA]).1, none) :=
  updateFiles_replaces_and_idempotent sAB [fA, fB] fA (by decide) (by decide)
    (by decide) (by decide)

/-- C5 (amended). -/
theorem removeFiles_present_ids (s : EngineState) (fileIds : List String)
    (hready : s.isReady = true) (hnd : fileIds.Nodup)
    (hpres : ∀ i ∈ fileIds, msHas s.miniSearch i = true) :
    removeFiles s fileIds =
      ({ s with
          miniSearch := s.miniSearch.filter (fun d => !(fileIds.contains d.id))
          fileMap := s.fileMap.filter (fun p => !(fileIds.contains p.1)) }, none) := by
  unfold removeFiles
  simp only [hready, Bool.not_true, Bool.false_eq_true, if_false]
  rw [msDiscardAll_ok_of fileIds s.miniSearch hnd hpres]
  rw [foldl_mapDelete_eq_filter]

/-- C5 counterexample. -/
theorem removeFiles_unknown_id_counterexample :
    (removeFiles sAB ["b", "zz"]).2 =
      some "MiniSearch: cannot discard document with ID zz: it is not in the index" ∧
    msHas (removeFiles sAB ["b", "zz"]).1.miniSearch "b" = false ∧
    mapHas (removeFiles sAB ["b", "zz"]).1.fileMap "b" = true := by
  decide

theorem removeFiles_present_ids_witness :
    removeFiles sAB ["a"] =
      ({ sAB with
          miniSearch := sAB.miniSearch.filter (fun d => !((["a"] : List String).contains d.id))
          fileMap := sAB.fileMap.filter (fun p => !((["a"] : List String).contains p.1)) }, none) :=
  removeFiles_present_ids sAB ["a"] (by decide) (by decide) (by decide)

end Spotlight

namespace Spotlight

theorem msIds_map_toSearchable (files : List FileMetadata) :
    msIds (files.map toSearchable) = files.map (·.id) := by
  simp [msIds, toSearchable, Function.comp]

theorem keys_mapDelete (m : List (String × FileMetadata)) (k x : String) :
    x ∈ (mapDelete m k).map (·.1) ↔ x ∈ m.map (·.1) ∧ x ≠ k := by
  simp only [mapDelete, List.mem_map, List.mem_filter, bne_iff_ne]
  constructor
  · rintro ⟨p, ⟨hp, hne⟩, rfl⟩
    exact ⟨⟨p, hp, rfl⟩, hne⟩
  · rintro ⟨⟨p, hp, rfl⟩, hne⟩
    exact ⟨p, ⟨hp, hne⟩, rfl⟩

theorem keys_foldl_mapDelete (ids : List String) : ∀ m (x : String),
    x ∈ (ids.foldl mapDelete m).map (·.1) ↔ x ∈ m.map (·.1) ∧ x ∉ ids := by
  induction ids with
  | nil => simp
  | cons i is ih =>
    intro m x
    simp only [List.foldl_cons]
    rw [ih (mapDelete m i) x, keys_mapDelete]
    simp only [List.mem_cons]
    tauto

theorem mapGet_some_mem (m : List (String × FileMetadata)) (k : String) (f : FileMetadata)
    (h : mapGet m k = some f) : k ∈ m.map (·.1) := by
  unfold mapGet at h
  rcases hfind : m.find? (fun p => p.1 == k) with _ | p
  · rw [hfind] at h
    simp at h
  · have hp := List.find?_some hfind
    have hmem := List.mem_of_find?_eq_some hfind
    simp only [beq_iff_eq] at hp
    exact hp ▸ List.mem_map_of_mem (·.1) hmem

theorem addFiles_eq_some (s : EngineState) (files : List FileMetadata)
    (ms : MiniSearch) (e : String) (hr : s.isReady = true)
    (h : msAddAll s.miniSearch (files.map toSearchable) = (ms, some e)) :
    addFiles s files = ({ s with miniSearch := ms }, some e) := by
  unfold addFiles
  simp only [hr, Bool.not_true, Bool.false_eq_true, if_false]
  rw [h]

theorem addFiles_eq_none (s : EngineState) (files : List FileMetadata)
    (ms : MiniSearch) (hr : s.isReady = true)
    (h : msAddAll s.miniSearch (files.map toSearchable) = (ms, none)) :
    addFiles s files =
      ({ s with miniSearch := ms
                fileMap := files.foldl (fun m f => mapSet m f.id f) s.fileMap }, none) := by
  unfold addFiles
  simp only [hr, Bool.not_true, Bool.false_eq_true, if_false]
  rw [h]

theorem removeFiles_eq_some (s : EngineState) (fileIds : List String)
    (ms : MiniSearch) (e : String) (hr : s.isReady = true)
    (h : msDiscardAll s.miniSearch fileIds = (ms, some e)) :
    removeFiles s fileIds = ({ s with miniSearch := ms }, some e) := by
  unfold removeFiles
  simp only [hr, Bool.not_true, Bool.false_eq_true, if_false]
  rw [h]

theorem removeFiles_eq_none (s : EngineState) (fileIds : List String)
    (ms : MiniSearch) (hr : s.isReady = true)
    (h : msDiscardAll s.miniSearch fileIds = (ms, none)) :
    removeFiles s fileIds =
      ({ s with miniSearch := ms
                fileMap := fileIds.foldl mapDelete s.fileMap }, none) := by
  unfold removeFiles
  simp only [hr, Bool.not_true, Bool.false_eq_true, if_false]
  rw [h]

theorem updateFiles_eq_some (s : EngineState) (files : List FileMetadata)
    (ms : MiniSearch) (e : String) (hr : s.isReady = true)
    (h : msDiscardAll s.miniSearch (files.map (·.id)) = (ms, some e)) :
    updateFiles s files = ({ s with miniSearch := ms }, some e) := by
  unfold updateFiles
  simp only [hr, Bool.not_true, Bool.false_eq_true, if_false]
  rw [h]

theorem updateFiles_eq_none (s : EngineState) (files : List FileMetadata)
    (ms : MiniSearch) (hr : s.isReady = true)
    (h : msDiscardAll s.miniSearch (files.map (·.id)) = (ms, none)) :
    updateFiles s files = addFiles { s with miniSearch := ms } files := by
  unfold updateFiles
  simp only [hr, Bool.not_true, Bool.false_eq_true, if_false]
  rw [h]

theorem addFiles_not_ready (s : EngineState) (files : List FileMetadata)
    (hr : s.isReady = false) : addFiles s files = (s, some notInitializedMsg) := by
  unfold addFiles
  simp [hr]

theorem updateFiles_not_ready (s : EngineState) (files : List FileMetadata)
    (hr : s.isReady = false) : updateFiles s files = (s, none) := by
  unfold updateFiles
  simp [hr]

theorem removeFiles_not_ready (s : EngineState) (fileIds : List String)
    (hr : s.isReady = false) : removeFiles s fileIds = (s, none) := by
  unfold removeFiles
  simp [hr]

theorem replaceIndex_not_ready (s : EngineState) (files : List FileMetadata)
    (hr : s.isReady = false) : replaceIndex s files = (s, none) := by
  unfold replaceIndex
  simp [hr]

theorem replaceIndex_ready (s : EngineState) (files : List FileMetadata)
    (hr : s.isReady = true) :
    replaceIndex s files = addFiles { s with miniSearch := [], fileMap := [] } files := by
  unfold replaceIndex
  simp [hr]

theorem addFiles_consistent_ok (s : EngineState) (files : List FileMetadata)
    (hinv : indexConsistent s) (hok : (addFiles s files).2 = none) :
    indexConsistent (addFiles s files).1 := by
  by_cases hr : s.isReady = true
  · obtain ⟨⟨ms, err⟩, hms⟩ : ∃ p, msAddAll s.miniSearch (files.map toSearchable) = p :=
      ⟨_, rfl⟩
    cases err with
    | some e =>
      rw [addFiles_eq_some s files ms e hr hms] at hok
      simp at hok
    | none =>
      rw [addFiles_eq_none s files ms hr hms]
      have heq := msAddAll_ok_eq _ _ _ hms
      subst heq
      intro x
      dsimp only
      rw [mem_msIds_append, keys_foldl_mapSet, msIds_map_toSearchable]
      have hx := hinv x
      tauto
  · have hr' : s.isReady = false := by simpa using hr
    rw [addFiles_not_ready s files hr'] at hok
    simp at hok

theorem addFiles_singleton_consistent (s : EngineState) (f : FileMetadata)
    (hinv : indexConsistent s) : indexConsistent (addFiles s [f]).1 := by
  by_cases hr : s.isReady = true
  · by_cases hh : msHas s.miniSearch (toSearchable f).id = true
    · have hms : msAddAll s.miniSearch (([f] : List FileMetadata).map toSearchable) =
          (s.miniSearch, some ("MiniSearch: duplicate ID " ++ (toSearchable f).id)) := by
        show msAddAll s.miniSearch [toSearchable f] = _
        unfold msAddAll
        rw [hh]
        rfl
      rw [addFiles_eq_some s [f] _ _ hr hms]
      exact hinv
    · have hh' : msHas s.miniSearch (toSearchable f).id = false := by simpa using hh
      have hms : msAddAll s.miniSearch (([f] : List FileMetadata).map toSearchable) =
          (s.miniSearch ++ [toSearchable f], none) := by
        apply msAddAll_ok_of
        · simp
        · intro d hd
          simp only [List.map_cons, List.map_nil, List.mem_singleton] at hd
          subst hd
          exact hh'
      rw [addFiles_eq_none s [f] _ hr hms]
      intro x
      dsimp only
      show _ ↔ x ∈ (mapSet s.fileMap f.id f).map (·.1)
      rw [mem_msIds_append, keys_mapSet]
      have hx := hinv x
      have hsing : x ∈ msIds [toSearchable f] ↔ x = f.id := by
        simp [msIds, toSearchable]
      rw [hsing]
      tauto
  · have hr' : s.isReady = false := by simpa using hr
    rw [addFiles_not_ready s [f] hr']
    exact hinv

theorem removeFiles_singleton_consistent (s : EngineState) (i : String)
    (hinv : indexConsistent s) : indexConsistent (removeFiles s [i]).1 := by
  by_cases hr : s.isReady = true
  · by_cases hh : msHas s.miniSearch i = true
    · have hms : msDiscardAll s.miniSearch [i] =
          (s.miniSearch.filter (fun d => d.id != i), none) := by
        unfold msDiscardAll
        rw [hh]
        simp [msDiscardAll]
      rw [removeFiles_eq_none s [i] _ hr hms]
      intro x
      dsimp only
      show _ ↔ x ∈ (mapDelete s.fileMap i).map (·.1)
      rw [mem_msIds_filter_ne, keys_mapDelete]
      have hx := hinv x
      tauto
    · have hh' : msHas s.miniSearch i = false := by simpa using hh
      have hms : msDiscardAll s.miniSearch [i] =
          (s.miniSearch,
           some ("MiniSearch: cannot discard document with ID " ++ i ++ ": it is not in the index")) := by
        unfold msDiscardAll
        rw [hh']
        rfl
      rw [removeFiles_eq_some s [i] _ _ hr hms]
      exact hinv
  · have hr' : s.isReady = false := by simpa using hr
    rw [removeFiles_not_ready s [i] hr']
    exact hinv

theorem updateFiles_singleton_consistent (s : EngineState) (f : FileMetadata)
    (hinv : indexConsistent s) : indexConsistent (updateFiles s [f]).1 := by
  by_cases hr : s.isReady = true
  · by_cases hh : msHas s.miniSearch f.id = true
    · rw [updateFiles_singleton_eq s f hr hh]
      intro x
      dsimp only
      rw [mem_msIds_append, mem_msIds_filter_ne, keys_mapSet]
      have hx := hinv x
      have hsing : x ∈ msIds [toSearchable f] ↔ x = f.id := by
        simp [msIds, toSearchable]
      rw [hsing]
      tauto
    · have hh' : msHas s.miniSearch f.id = false := by simpa using hh
      have hms : msDiscardAll s.miniSearch (([f] : List FileMetadata).map (·.id)) =
          (s.miniSearch,
           some ("MiniSearch: cannot discard document with ID " ++ f.id ++ ": it is not in the index")) := by
        show msDiscardAll s.miniSearch [f.id] = _
        unfold msDiscardAll
        rw [hh']
        rfl
      rw [updateFiles_eq_some s [f] _ _ hr hms]
      exact hinv
  · have hr' : s.isReady = false := by simpa using hr
    rw [updateFiles_not_ready s [f] hr']
    exact hinv

theorem trackFileOpen_consistent (s : EngineState) (i nowIso : String)
    (hinv : indexConsistent s) : indexConsistent (trackFileOpen s i nowIso) := by
  unfold trackFileOpen
  rcases hg : mapGet s.fileMap i with _ | f
  · exact hinv
  · intro x
    dsimp only
    rw [keys_mapSet]
    have hx := hinv x
    have hik : i ∈ s.fileMap.map (·.1) := mapGet_some_mem s.fileMap i f hg
    constructor
    · intro h
      exact Or.inl (hx.1 h)
    · rintro (h | rfl)
      · exact hx.2 h
      · exact hx.2 hik

theorem processOneChange_consistent (s : EngineState) (c : Change)
    (hinv : indexConsistent s) : indexConsistent (processOneChange s c) := by
  unfold processOneChange
  split
  · split
    · exact removeFiles_singleton_consistent s c.fileId hinv
    · exact hinv
  · cases hcf : c.file with
    | none => exact hinv
    | some g =>
      show indexConsistent
        (if mapHas s.fileMap c.fileId = true then (updateFiles s [g]).1
         else (addFiles s [g]).1)
      split
      · exact updateFiles_singleton_consistent s g hinv
      · exact addFiles_singleton_consistent s g hinv

theorem processChanges_consistent (s : EngineState) (changes : List Change)
    (hinv : indexConsistent s) : indexConsistent (processChanges s changes).1 := by
  unfold processChanges
  split
  · exact hinv
  · dsimp only
    clear * - hinv
    induction changes generalizing s with
    | nil => exact hinv
    | cons c cs ih =>
      simp only [List.foldl_cons]
      exact ih _ (processOneChange_consistent s c hinv)

theorem applyOp_consistent (s : EngineState) (op : Op)
    (hinv : indexConsistent s) (hok : (applyOp s op).2 = none) :
    indexConsistent (applyOp s op).1 := by
  cases op with
  | add fs => exact addFiles_consistent_ok s fs hinv hok
  | update fs =>
    replace hok : (updateFiles s fs).2 = none := hok
    show indexConsistent (updateFiles s fs).1
    by_cases hr : s.isReady = true
    · obtain ⟨⟨ms, err⟩, hms⟩ : ∃ p, msDiscardAll s.miniSearch (fs.map (·.id)) = p :=
        ⟨_, rfl⟩
      cases err with
      | some e =>
        rw [updateFiles_eq_some s fs ms e hr hms] at hok
        simp at hok
      | none =>
        rw [updateFiles_eq_none s fs ms hr hms] at hok ⊢
        obtain ⟨⟨ms2, err2⟩, hms2⟩ : ∃ p, msAddAll ms (fs.map toSearchable) = p :=
          ⟨_, rfl⟩
        cases err2 with
        | some e =>
          rw [addFiles_eq_some { s with miniSearch := ms } fs ms2 e hr hms2] at hok
          simp at hok
        | none =>
          rw [addFiles_eq_none { s with miniSearch := ms } fs ms2 hr hms2]
          have heq := msAddAll_ok_eq _ _ _ hms2
          subst heq
          have hdm := msDiscardAll_ok_mem _ _ _ hms
          intro x
          dsimp only
          rw [mem_msIds_append, keys_foldl_mapSet, msIds_map_toSearchable, hdm x]
          have hx := hinv x
          tauto
    · have hr' : s.isReady = false := by simpa using hr
      rw [updateFiles_not_ready s fs hr']
      exact hinv
  | remove ids =>
    replace hok : (removeFiles s ids).2 = none := hok
    show indexConsistent (removeFiles s ids).1
    by_cases hr : s.isReady = true
    · obtain ⟨⟨ms, err⟩, hms⟩ : ∃ p, msDiscardAll s.miniSearch ids = p := ⟨_, rfl⟩
      cases err with
      | some e =>
        rw [removeFiles_eq_some s ids ms e hr hms] at hok
        simp at hok
      | none =>
        rw [removeFiles_eq_none s ids ms hr hms]
        have hdm := msDiscardAll_ok_mem _ _ _ hms
        intro x
        dsimp only
        rw [keys_foldl_mapDelete, hdm x]
        have hx := hinv x
        tauto
    · have hr' : s.isReady = false := by simpa using hr
      rw [removeFiles_not_ready s ids hr']
      exact hinv
  | replace fs =>
    replace hok : (replaceIndex s fs).2 = none := hok
    show indexConsistent (replaceIndex s fs).1
    by_cases hr : s.isReady = true
    · rw [replaceIndex_ready s fs hr] at hok ⊢
      refine addFiles_consistent_ok _ fs ?_ hok
      intro x
      simp [msIds]
    · have hr' : s.isReady = false := by simpa using hr
      rw [replaceIndex_not_ready s fs hr']
      exact hinv
  | process cs => exact processChanges_consistent s cs hinv
  | track i now => exact trackFileOpen_consistent s i now hinv

theorem runOps_consistent (ops : List Op) : ∀ s : EngineState,
    indexConsistent s → runOpsOk s ops = true → indexConsistent (runOps s ops) := by
  induction ops with
  | nil => intro s h _; exact h
  | cons op ops ih =>
    intro s h hok
    simp only [runOpsOk, Bool.and_eq_true, Option.isNone_iff_eq_none] at hok
    show indexConsistent (runOps (applyOp s op).1 ops)
    exact ih _ (applyOp_consistent s op h hok.1) hok.2

/-- C1 (amended). -/
theorem invariant_of_ok_runs (ops : List Op) (h : runOpsOk emptyState ops = true) :
    msIdSet (runOps emptyState ops) = mapKeySet (runOps emptyState ops) := by
  have hc := runOps_consistent ops emptyState (by intro x; simp [msIds, emptyState]) h
  unfold msIdSet mapKeySet
  ext x
  simp only [List.mem_toFinset]
  exact hc x

/-- C1 counterexample. -/
theorem invariant_counterexample :
    ¬ msIdSet (runOps emptyState [.add [fA, fA]]) =
        mapKeySet (runOps emptyState [.add [fA, fA]]) := by
  decide

theorem invariant_of_ok_runs_witness :
    runOpsOk emptyState
        [.add [fA, fB], .update [fA], .process [{ fileId := "b", removed := true }],
         .track "a" "2024-01-01", .remove ["a"], .replace [fB]] = true ∧
    msIdSet (runOps emptyState
        [.add [fA, fB], .update [fA], .process [{ fileId := "b", removed := true }],
         .track "a" "2024-01-01", .remove ["a"], .replace [fB]]) =
      mapKeySet (runOps emptyState
        [.add [fA, fB], .update [fA], .process [{ fileId := "b", removed := true }],
         .track "a" "2024-01-01", .remove ["a"], .replace [fB]]) :=
  ⟨by decide, invariant_of_ok_runs _ (by decide)⟩

end Spotlight

namespace Spotlight

theorem syncFetchLoop_trace (conn : DriveConnector) :
    ∀ (fuel : Nat) (tok : String) (acc : List Change) (st : SyncState)
      (evs : List SyncEvent),
      (syncFetchLoop conn fuel tok acc st evs).2.2 = evs ∨
      ∃ t, (syncFetchLoop conn fuel tok acc st evs).2.2 = evs ++ [.saveCursor t] := by
  intro fuel
  induction fuel with
  | zero => intro tok acc st evs; left; rfl
  | succ n ih =>
    intro tok acc st evs
    unfold syncFetchLoop
    rcases hg : conn.getChanges tok with e | page
    · left; rfl
    · dsimp only
      rcases hn : page.newStartPageToken with _ | t
      · rcases hp : page.nextPageToken with _ | t2
        · left; rfl
        · exact ih t2 (acc ++ page.changes.filter relevantChange) st evs
      · right
        exact ⟨t, rfl⟩

/-- C2 (amended): syncChanges persists the terminal cursor as soon as it is
received, before the accumulated batch is applied; each run emits at most one
cursor save, followed by at most one batch application. -/
theorem sync_trace_shape (conn : DriveConnector) (fuel : Nat) (s : SyncState) :
    syncTraceShape (syncChanges conn fuel s).2.2 := by
  unfold syncChanges syncTraceShape
  split
  · left; rfl
  · split
    · left; rfl
    · rcases hct : s.changeToken with _ | tok
      · rcases hst : conn.getStartPageToken with e | t
        · left; rfl
        · right; left
          exact ⟨t, rfl⟩
      · have htr := syncFetchLoop_trace conn fuel tok [] { s with isSyncing := true } []
        rw [hct] at htr
        simp only [List.nil_append] at htr
        dsimp only
        split
        · rcases htr with h0 | ⟨t, h0⟩ <;> rw [h0]
          · right; right; left
            exact ⟨_, rfl⟩
          · right; right; right
            exact ⟨t, _, rfl⟩
        · rcases htr with h0 | ⟨t, h0⟩ <;> rw [h0]
          · left; rfl
          · right; left
            exact ⟨t, rfl⟩

end Spotlight

namespace Spotlight

/-- C2 counterexample. -/
theorem cursor_persisted_before_apply_counterexample :
    ¬ cursorSavedAfterApply (syncChanges conn1 5 sync1).2.2 := by
  intro h
  have h0 := h 0 1 "tok2" [{ fileId := "a", removed := false, file := some fA }]
    (by decide) (by decide) (by simp)
  exact absurd h0 (by decide)

theorem chunksAux_flatten : ∀ (fuel : Nat) (l : List FileMetadata),
    l.length ≤ fuel → (chunksAux fuel l).flatten = l := by
  intro fuel
  induction fuel with
  | zero =>
    intro l h
    have : l = [] := List.length_eq_zero.1 (Nat.le_zero.1 h)
    subst this
    rfl
  | succ n ih =>
    intro l h
    cases l with
    | nil => rfl
    | cons x xs =>
      show ((x :: xs).take 100 :: chunksAux n ((x :: xs).drop 100)).flatten = x :: xs
      rw [List.flatten_cons]
      rw [ih ((x :: xs).drop 100) ?_]
      · exact List.take_append_drop 100 (x :: xs)
      · rw [List.length_drop]
        simp only [List.length_cons] at h ⊢
        omega

theorem chunks100_flatten (l : List FileMetadata) : (chunks100 l).flatten = l :=
  chunksAux_flatten l.length l le_rfl

theorem batchLoop_cons_ok (s : EngineState) (b : List FileMetadata)
    (bs : List (List FileMetadata)) (n : Nat) (errs : List String) (s' : EngineState)
    (h : addFiles s b = (s', none)) :
    batchLoop s (b :: bs) n errs = batchLoop s' bs (n + b.length) errs := by
  rw [show batchLoop s (b :: bs) n errs =
      match addFiles s b with
      | (s', none) => batchLoop s' bs (n + b.length) errs
      | (s', some e) => batchLoop s' bs n (errs ++ ["Failed to index batch: " ++ e])
    from rfl]
  rw [h]

theorem batchLoop_ok (batches : List (List FileMetadata)) :
    ∀ (s : EngineState) (n : Nat) (errs : List String),
      s.isReady = true →
      ((batches.flatten).map (·.id)).Nodup →
      (∀ f ∈ batches.flatten, msHas s.miniSearch f.id = false) →
      batchLoop s batches n errs =
        ({ s with
            miniSearch := s.miniSearch ++ (batches.flatten).map toSearchable
            fileMap := (batches.flatten).foldl (fun m f => mapSet m f.id f) s.fileMap },
         n + (batches.flatten).length, errs) := by
  induction batches with
  | nil =>
    intro s n errs hr _ _
    simp [batchLoop]
  | cons b bs ih =>
    intro s n errs hr hnd hdis
    have hjoin : (b :: bs).flatten = b ++ bs.flatten := rfl
    rw [hjoin] at hnd hdis
    have hndb : (b.map (·.id)).Nodup := by
      rw [List.map_append] at hnd
      exact hnd.of_append_left
    have hndbs : ((bs.flatten).map (·.id)).Nodup := by
      rw [List.map_append] at hnd
      exact hnd.of_append_right
    have hdisj := List.disjoint_of_nodup_append (by rw [List.map_append] at hnd; exact hnd)
    have hadd : addFiles s b =
        ({ s with
            miniSearch := s.miniSearch ++ b.map toSearchable
            fileMap := b.foldl (fun m f => mapSet m f.id f) s.fileMap }, none) := by
      apply addFiles_eq_none s b _ hr
      apply msAddAll_ok_of
      · rw [show (b.map toSearchable).map (·.id) = b.map (·.id) by
          simp [toSearchable, Function.comp]]
        exact hndb
      · intro d hd
        simp only [List.mem_map] at hd
        obtain ⟨g, hg, rfl⟩ := hd
        exact hdis g (List.mem_append_left _ hg)
    rw [batchLoop_cons_ok s b bs n errs _ hadd]
    rw [ih { s with
          miniSearch := s.miniSearch ++ b.map toSearchable
          fileMap := b.foldl (fun m f => mapSet m f.id f) s.fileMap }
        (n + b.length) errs hr hndbs ?_]
    · have hms : (s.miniSearch ++ b.map toSearchable) ++ (bs.flatten).map toSearchable =
          s.miniSearch ++ ((b :: bs).flatten).map toSearchable := by
        rw [hjoin, List.map_append, List.append_assoc]
      have hfm : (bs.flatten).foldl (fun m f => mapSet m f.id f)
            (b.foldl (fun m f => mapSet m f.id f) s.fileMap) =
          ((b :: bs).flatten).foldl (fun m f => mapSet m f.id f) s.fileMap := by
        rw [hjoin, List.foldl_append]
      have hlen : n + b.length + (bs.flatten).length = n + ((b :: bs).flatten).length := by
        rw [hjoin, List.length_append]
        omega
      rw [hms, hfm, hlen]
    · intro f hf
      rw [msHas_eq_false_iff, mem_msIds_append]
      rintro (hmem | hmem)
      · exact (msHas_eq_false_iff s.miniSearch f.id).1
          (hdis f (List.mem_append_right _ hf)) hmem
      · rw [msIds_map_toSearchable] at hmem
        exact hdisj hmem (List.mem_map_of_mem (·.id) hf)

theorem fetchAllPages_first_failure (listPage : Nat → Except String ListPage)
    (pf : Nat → List FileMetadata) (k : Nat) (msg : String)
    (hok : ∀ i, i < k → listPage i = .ok { files := pf i, hasNext := true })
    (hfail : listPage k = .error msg) :
    ∀ (fuel p : Nat) (acc : List FileMetadata), p ≤ k → k - p < fuel →
      fetchAllPages listPage fuel p acc [] =
        (acc ++ ((List.range' p (k - p)).map pf).flatten,
         ["Failed to fetch page " ++ toString k ++ ": " ++ msg], false) := by
  intro fuel
  induction fuel with
  | zero =>
    intro p acc _ hfuel
    exact absurd hfuel (Nat.not_lt_zero _)
  | succ n ih =>
    intro p acc hp hfuel
    by_cases hpk : p = k
    · subst hpk
      unfold fetchAllPages
      rw [hfail]
      simp [Nat.sub_self]
    · have hplt : p < k := lt_of_le_of_ne hp hpk
      unfold fetchAllPages
      rw [hok p hplt]
      dsimp only
      rw [ih (p + 1) (acc ++ pf p) hplt (by omega)]
      have hrange : List.range' p (k - p) = p :: List.range' (p + 1) (k - (p + 1)) := by
        have h1 : k - p = (k - (p + 1)) + 1 := by omega
        rw [h1]
        rfl
      rw [hrange]
      simp [List.append_assoc]

end Spotlight

namespace Spotlight

theorem rankingScore_eq_specScore_witness :
    rankingScore wexp wlog wdate 86400000 2 fC = specScore wexp wlog wdate 86400000 2 fC :=
  rankingScore_eq_specScore wexp wlog wdate 86400000 2 fC (by norm_num [wlog])

/-- C3 (amended). -/
theorem rebuild_stops_at_first_fetch_failure
    (listPage : Nat → Except String ListPage) (pf : Nat → List FileMetadata)
    (k : Nat) (msg : String) (fuel : Nat) (s : EngineState)
    (hok : ∀ i, i < k → listPage i = .ok { files := pf i, hasNext := true })
    (hfail : listPage k = .error msg)
    (hfuel : k < fuel) (hready : s.isReady = true)
    (hne : ((List.range k).map pf).flatten ≠ [])
    (hnd : ((((List.range k).map pf).flatten).map (·.id)).Nodup) :
    (indexGoogleDriveJob listPage true true s fuel).1 =
      { success := true,
        filesIndexed := (((List.range k).map pf).flatten).length,
        errors := ["Failed to fetch page " ++ toString k ++ ": " ++ msg] } ∧
    msIds (indexGoogleDriveJob listPage true true s fuel).2.miniSearch =
      (((List.range k).map pf).flatten).map (·.id) := by
  have hfetch := fetchAllPages_first_failure listPage pf k msg hok hfail fuel 0 []
    (Nat.zero_le k) (by omega)
  simp only [Nat.sub_zero, List.nil_append] at hfetch
  rw [← List.range_eq_range'] at hfetch
  unfold indexGoogleDriveJob
  simp only [Bool.not_true, Bool.false_and, Bool.false_eq_true, if_false]
  rw [hfetch]
  dsimp only
  rw [if_neg (by simp)]
  rw [if_neg (fun hc => hne (List.length_eq_zero.1 hc))]
  have hrep : (replaceIndex s ([] : List FileMetadata)).1 =
      { s with miniSearch := [], fileMap := [] } := by
    rw [replaceIndex_ready s [] hready]
    rw [addFiles_eq_none { s with miniSearch := [], fileMap := [] } [] [] hready rfl]
    rfl
  rw [hrep]
  have hbatch := batchLoop_ok (chunks100 (((List.range k).map pf).flatten))
    { s with miniSearch := [], fileMap := [] } 0
    ["Failed to fetch page " ++ toString k ++ ": " ++ msg] hready ?_ ?_
  · rw [chunks100_flatten] at hbatch
    rw [hbatch]
    dsimp only
    constructor
    · have hpos : 0 < (((List.range k).map pf).flatten).length :=
        List.length_pos.2 hne
      congr 1
      · simpa using hpos
      · exact Nat.zero_add _
    · simp only [Nat.zero_add, List.nil_append]
      rw [msIds_map_toSearchable]
  · rw [chunks100_flatten]
    exact hnd
  · rw [chunks100_flatten]
    intro f _
    rfl

end Spotlight

namespace Spotlight

/-- C3 counterexample. -/
theorem rebuild_partial_failure_counterexample :
    (indexGoogleDriveJob tenPages true true emptyState 20).1.success = true ∧
    (indexGoogleDriveJob tenPages true true emptyState 20).1.filesIndexed = 2 ∧
    (indexGoogleDriveJob tenPages true true emptyState 20).1.errors =
      ["Failed to fetch page 2: network error"] ∧
    msHas (indexGoogleDriveJob tenPages true true emptyState 20).2.miniSearch "f3" = false := by
  decide

theorem rebuild_stops_witness :
    (indexGoogleDriveJob tenPages true true emptyState 20).1 =
      { success := true,
        filesIndexed := (((List.range 2).map (fun n => [mkFile n])).flatten).length,
        errors := ["Failed to fetch page " ++ toString 2 ++ ": " ++ "network error"] } ∧
    msIds (indexGoogleDriveJob tenPages true true emptyState 20).2.miniSearch =
      (((List.range 2).map (fun n => [mkFile n])).flatten).map (·.id) :=
  rebuild_stops_at_first_fetch_failure tenPages (fun n => [mkFile n]) 2 "network error"
    20 emptyState (fun i hi => by interval_cases i <;> rfl) rfl (by decide) rfl
    (by decide) (by decide)

end Spotlight
